import Mathlib

/-!
Shallow embedding of the KurumeGame2 tile-grid game (script.js, both
revisions, and the unnamed revision part_000).

Conventions of the embedding:
* JS numbers holding continuous enemy coordinates and speeds are modelled
  as rationals; `Math.floor(v + 0.5)` becomes the integer floor on `ℚ`.
* Player coordinates and the timer are integers (`Int`), as arrow keys
  may propose negative candidate coordinates.
* The module-level mutable globals of each revision are gathered into one
  state record; DOM, canvas, audio and logging calls are external
  collaborators and are dropped, while the user-visible `alert` calls of
  `gameOver` and `levelClear` are recorded as event counters so that
  "fires exactly once" properties are statable.
* `script.js` contains two revisions: a scene-managed one (`currentScene`
  is "title" or "game"), modelled by `GameStateS` and the `...S`
  operations, and a boolean one (`isGamePlaying`), modelled by
  `GameStateB` and the `...B` operations.  The unnamed revision
  `part_000` shares `GameStateB` and differs only in its keydown
  handler, modelled by `keydownPart`.
-/

namespace KurumeGame

/-- One enemy, as pushed by `initGameState`:
`{x: col, y: row, speedX: 0.01, speedY: 0, color: "red"}`. -/
structure Enemy where
  x : ℚ
  y : ℚ
  speedX : ℚ
  speedY : ℚ
  color : String
  deriving Repr, DecidableEq

/-- One entry of `MapLevel.json`: `{id, width, height, tiles}`;
`tiles` is a list of rows, each a list of characters. -/
structure Level where
  id : Int
  width : Nat
  height : Nat
  tiles : List (List Char)
  deriving Repr, DecidableEq

/-- Tile lookup `tiles[row][col]` with natural-number indices.  JS
out-of-range indexing yields `undefined`; any default character distinct
from the markers plays that role. -/
def tileAtN (lv : Level) (row col : Nat) : Char :=
  (lv.tiles.getD row []).getD col ' '

/-- Tile lookup `tiles[y][x]` with integer indices, as performed by
`canMoveTo` and the keydown handlers after their bounds checks. -/
def tileAt (lv : Level) (x y : Int) : Char :=
  if 0 ≤ y ∧ 0 ≤ x then tileAtN lv y.toNat x.toNat else ' '

/-- The scene flag of the scene-managed revision: "title" or "game". -/
inductive Scene where
  | title
  | game
  deriving Repr, DecidableEq

/-- Key identifiers relevant to the keydown handlers; `other` stands for
every key that is not one of the four arrows. -/
inductive Key where
  | arrowUp
  | arrowDown
  | arrowLeft
  | arrowRight
  | other
  deriving Repr, DecidableEq

/-- Game state of the `isGamePlaying` revisions (second half of
`script.js`, and `part_000`): the module-level mutable globals, plus
counters for the `alert` calls of `gameOver` and `levelClear`.
`timerOn` records whether the `setInterval` timer is active. -/
structure GameStateB where
  playerX : Int
  playerY : Int
  enemies : List Enemy
  timeRemaining : Int
  isGamePlaying : Bool
  currentMapData : Option Level
  timerOn : Bool
  gameOverCount : Nat
  levelClearCount : Nat
  deriving Repr, DecidableEq

/-- Game state of the scene-managed revision (first half of
`script.js`): same globals but a `currentScene` flag instead of
`isGamePlaying`. -/
structure GameStateS where
  playerX : Int
  playerY : Int
  enemies : List Enemy
  timeRemaining : Int
  scene : Scene
  currentMapData : Option Level
  timerOn : Bool
  gameOverCount : Nat
  levelClearCount : Nat
  deriving Repr, DecidableEq

/-- The configured time limit `timeLimit = 30`. -/
def timeLimit : Int := 30

/-- Movement validator `canMoveTo(x, y)`: false when no level is active, when the
coordinate is out of bounds, or when the tile there is `#`. -/
def canMoveTo (m : Option Level) (x y : Int) : Bool :=
  match m with
  | none => false
  | some lv =>
    if y < 0 ∨ (lv.height : Int) ≤ y then false
    else if x < 0 ∨ (lv.width : Int) ≤ x then false
    else if tileAt lv x y = '#' then false
    else true

/-- Candidate destination of a keydown event: the switch over `e.key`
(`default: return` for any other key). -/
def newPos (x y : Int) : Key → Option (Int × Int)
  | Key.arrowUp => some (x, y - 1)
  | Key.arrowDown => some (x, y + 1)
  | Key.arrowLeft => some (x - 1, y)
  | Key.arrowRight => some (x + 1, y)
  | Key.other => none

/-- The `endGame()` of the `isGamePlaying` revisions:
`isGamePlaying = false; clearInterval(timerInterval)`. -/
def endGameB (s : GameStateB) : GameStateB :=
  { s with isGamePlaying := false, timerOn := false }

/-- The `gameOver(msg)` transition: `alert(msg)` (counted) then `endGame()`. -/
def gameOverB (s : GameStateB) : GameStateB :=
  { endGameB s with gameOverCount := s.gameOverCount + 1 }

/-- The `levelClear()` transition: one `alert` (counted) then `endGame()`. -/
def levelClearB (s : GameStateB) : GameStateB :=
  { endGameB s with levelClearCount := s.levelClearCount + 1 }

/-- The `endGame()` of the scene-managed revision: stop the timer and set
`currentScene = "title"` (audio switching is external). -/
def endGameS (s : GameStateS) : GameStateS :=
  { s with scene := Scene.title, timerOn := false }

/-- The `gameOver(msg)` of the scene-managed revision. -/
def gameOverS (s : GameStateS) : GameStateS :=
  { endGameS s with gameOverCount := s.gameOverCount + 1 }

/-- The `levelClear()` of the scene-managed revision. -/
def levelClearS (s : GameStateS) : GameStateS :=
  { endGameS s with levelClearCount := s.levelClearCount + 1 }

/-- Accumulator of the `initGameState` row-major scan. -/
structure ScanAcc where
  px : Int
  py : Int
  enemies : List Enemy
  deriving Repr, DecidableEq

/-- The cells of a level in row-major scan order, as the nested
`for (row ...) for (col ...)` loops of `initGameState` visit them. -/
def cellsRM (lv : Level) : List (Nat × Nat) :=
  (List.range lv.height).flatMap fun row =>
    (List.range lv.width).map fun col => (row, col)

/-- One iteration of the `initGameState` scan: an `S` cell overwrites
the player position, an `E` cell appends one enemy. -/
def scanStep (lv : Level) (a : ScanAcc) (rc : Nat × Nat) : ScanAcc :=
  let ch := tileAtN lv rc.1 rc.2
  if ch = 'S' then { a with px := rc.2, py := rc.1 }
  else if ch = 'E' then
    { a with enemies :=
        a.enemies ++ [⟨(rc.2 : ℚ), (rc.1 : ℚ), 1/100, 0, "red"⟩] }
  else a

/-- The `initGameState()` body run with `currentMapData = lv`: reset the timer
value, clear the enemy list, then scan the grid row-major. -/
def initGameStateOn (lv : Level) (s : GameStateB) : GameStateB :=
  let a := (cellsRM lv).foldl (scanStep lv) ⟨s.playerX, s.playerY, []⟩
  { s with timeRemaining := timeLimit, playerX := a.px, playerY := a.py,
           enemies := a.enemies }

/-- Scene-revision `initGameState()` (identical scan). -/
def initGameStateOnS (lv : Level) (s : GameStateS) : GameStateS :=
  let a := (cellsRM lv).foldl (scanStep lv) ⟨s.playerX, s.playerY, []⟩
  { s with timeRemaining := timeLimit, playerX := a.px, playerY := a.py,
           enemies := a.enemies }

/-- The `startGame(level)` of the `isGamePlaying` revisions: first
`if (isGamePlaying) endGame();`, then the level lookup; on failure
return, on success set `currentMapData`, run `initGameState`,
`initTimer`, and set `isGamePlaying = true`. -/
def startGameB (allLevels : List Level) (levelId : Int) (s : GameStateB) :
    GameStateB :=
  let s0 := if s.isGamePlaying then endGameB s else s
  match allLevels.find? (fun l => l.id == levelId) with
  | none => s0
  | some lv =>
    let s1 := { s0 with currentMapData := some lv }
    let s2 := initGameStateOn lv s1
    { s2 with timerOn := true, isGamePlaying := true }

/-- The `startGame(level)` of the scene-managed revision: level lookup
first (no prior `endGame`); on failure return, on success set
`currentMapData`, run `initGameState`, `initTimer`, and enter the
"game" scene. -/
def startGameS (allLevels : List Level) (levelId : Int) (s : GameStateS) :
    GameStateS :=
  match allLevels.find? (fun l => l.id == levelId) with
  | none => s
  | some lv =>
    let s1 := { s with currentMapData := some lv }
    let s2 := initGameStateOnS lv s1
    { s2 with timerOn := true, scene := Scene.game }

/-- The timer callback of the `isGamePlaying` revisions:
`if (!isGamePlaying) return; timeRemaining--; if (timeRemaining <= 0)
gameOver("Time Up! Game Over!")`. -/
def tickB (s : GameStateB) : GameStateB :=
  if s.isGamePlaying then
    let s1 := { s with timeRemaining := s.timeRemaining - 1 }
    if s1.timeRemaining ≤ 0 then gameOverB s1 else s1
  else s

/-- The timer callback of the scene-managed revision:
`if (currentScene !== "game") return; timeRemaining--; ...`. -/
def tickS (s : GameStateS) : GameStateS :=
  if s.scene = Scene.game then
    let s1 := { s with timeRemaining := s.timeRemaining - 1 }
    if s1.timeRemaining ≤ 0 then gameOverS s1 else s1
  else s

/-- Rounding by `Math.floor(v + 0.5)`: round to nearest integer, halves up. -/
def roundHalf (v : ℚ) : Int := ⌊v + 1/2⌋

/-- One enemy step of `updateEnemies()`: `x += speedX; y += speedY;`
then `if (x < 1 || x > width - 2) speedX *= -1`. -/
def updateEnemy (w : Nat) (e : Enemy) : Enemy :=
  let nx := e.x + e.speedX
  let ny := e.y + e.speedY
  if nx < 1 ∨ nx > (w : ℚ) - 2 then
    { e with x := nx, y := ny, speedX := -e.speedX }
  else
    { e with x := nx, y := ny }

/-- The `updateEnemies()` loop over the whole list (each enemy independent). -/
def updateEnemies (w : Nat) (es : List Enemy) : List Enemy :=
  es.map (updateEnemy w)

/-- Does this enemy collide with the player tile after rounding. -/
def enemyHits (px py : Int) (e : Enemy) : Bool :=
  roundHalf e.x == px && roundHalf e.y == py

/-- Collision check `checkCollisionWithEnemies()` / `checkCollision()`: the first enemy
in list order whose rounded tile equals the player tile triggers
`gameOver` and the loop returns; otherwise no change. -/
def checkCollisionB (s : GameStateB) : GameStateB :=
  match s.enemies.find? (enemyHits s.playerX s.playerY) with
  | some _ => gameOverB s
  | none => s

/-- The keydown handler of the `isGamePlaying` revision of `script.js`:
guard `if (!isGamePlaying) return;`, compute the candidate, validate
with `canMoveTo`, commit, then `if (tiles[newY][newX] === G)
levelClear()`. -/
def keydownB (s : GameStateB) (k : Key) : GameStateB :=
  if s.isGamePlaying then
    match newPos s.playerX s.playerY k with
    | none => s
    | some (nx, ny) =>
      if canMoveTo s.currentMapData nx ny then
        let s1 := { s with playerX := nx, playerY := ny }
        match s.currentMapData with
        | some lv => if tileAt lv nx ny = 'G' then levelClearB s1 else s1
        | none => s1
      else s
  else s

/-- The keydown handler of the scene-managed revision: guard
`if (currentScene !== "game") return;`, otherwise identical. -/
def keydownS (s : GameStateS) (k : Key) : GameStateS :=
  if s.scene = Scene.game then
    match newPos s.playerX s.playerY k with
    | none => s
    | some (nx, ny) =>
      if canMoveTo s.currentMapData nx ny then
        let s1 := { s with playerX := nx, playerY := ny }
        match s.currentMapData with
        | some lv => if tileAt lv nx ny = 'G' then levelClearS s1 else s1
        | none => s1
      else s
  else s

/-- The keydown handler of `part_000`: its playing-state guard is an
empty `if` block (it does not return), and it performs no goal-tile
check after committing the move. -/
def keydownPart (s : GameStateB) (k : Key) : GameStateB :=
  match newPos s.playerX s.playerY k with
  | none => s
  | some (nx, ny) =>
    if canMoveTo s.currentMapData nx ny then
      { s with playerX := nx, playerY := ny }
    else s

/-- The enemy-advance step of the frame loop, on the boolean-flag
state (`updateEnemies()` reads `currentMapData.width`; it only runs
with an active level). -/
def advanceB (s : GameStateB) : GameStateB :=
  match s.currentMapData with
  | some lv => { s with enemies := updateEnemies lv.width s.enemies }
  | none => s

/-- The enemy-advance step on the scene-managed state. -/
def advanceS (s : GameStateS) : GameStateS :=
  match s.currentMapData with
  | some lv => { s with enemies := updateEnemies lv.width s.enemies }
  | none => s

/-- Scene-revision collision check (same loop as `checkCollisionB`). -/
def checkCollisionS (s : GameStateS) : GameStateS :=
  match s.enemies.find? (enemyHits s.playerX s.playerY) with
  | some _ => gameOverS s
  | none => s

/-- The enemy produced when a scan cell holds `E`, `none` otherwise. -/
def eCellOf (lv : Level) (rc : Nat × Nat) : Option Enemy :=
  if tileAtN lv rc.1 rc.2 = 'E' then
    some ⟨(rc.2 : ℚ), (rc.1 : ℚ), 1/100, 0, "red"⟩
  else none

/-- Whether a scan cell holds the start marker `S`. -/
def isSCell (lv : Level) (rc : Nat × Nat) : Bool :=
  tileAtN lv rc.1 rc.2 == 'S'

/-- The player-position / wall invariant of spec section 3, on the
boolean-flag state: whenever a level is active, the player is in
bounds and not on a `#` tile. -/
def invariantB (s : GameStateB) : Prop :=
  ∀ lv, s.currentMapData = some lv →
    0 ≤ s.playerX ∧ s.playerX < (lv.width : Int) ∧
    0 ≤ s.playerY ∧ s.playerY < (lv.height : Int) ∧
    tileAt lv s.playerX s.playerY ≠ '#'

/-- The same invariant on the scene-managed state. -/
def invariantS (s : GameStateS) : Prop :=
  ∀ lv, s.currentMapData = some lv →
    0 ≤ s.playerX ∧ s.playerX < (lv.width : Int) ∧
    0 ≤ s.playerY ∧ s.playerY < (lv.height : Int) ∧
    tileAt lv s.playerX s.playerY ≠ '#'

/-- Whether a level grid contains at least one `S` marker. -/
def hasStart (lv : Level) : Bool :=
  (cellsRM lv).any (isSCell lv)

section ConcreteData

/-- A 3x3 all-floor level used in concrete runs. -/
def lvlFloor : Level :=
  ⟨1, 3, 3, [['.', '.', '.'], ['.', '.', '.'], ['.', '.', '.']]⟩

/-- A 2x2 level with no `S` marker whose top-left tile is a wall. -/
def lvlNoS : Level :=
  ⟨1, 2, 2, [['#', '.'], ['.', '.']]⟩

/-- A 1x2 level whose second tile is the goal. -/
def lvlGoal : Level :=
  ⟨1, 2, 1, [['.', 'G']]⟩

/-- The spec section 8 example level: one `S`, two `E`, one `G`. -/
def lvlSpec8 : Level :=
  ⟨1, 3, 3, [['S', '.', 'E'], ['.', '#', '.'], ['E', '.', 'G']]⟩

/-- The state at page load: player at the origin, no enemies, full
timer, not playing, no active level. -/
def initStateB : GameStateB :=
  ⟨0, 0, [], timeLimit, false, none, false, 0, 0⟩

/-- The scene-managed state at page load (title scene). -/
def initStateS : GameStateS :=
  ⟨0, 0, [], timeLimit, Scene.title, none, false, 0, 0⟩

/-- A mid-session playing state on the floor level. -/
def playingStateB : GameStateB :=
  ⟨1, 1, [], 20, true, some lvlFloor, true, 0, 0⟩

/-- A state after a session on the floor level has ended: level still
loaded, not playing. -/
def endedStateB : GameStateB :=
  ⟨1, 1, [], 20, false, some lvlFloor, false, 0, 0⟩

/-- A playing state one tile left of the goal of `lvlGoal`. -/
def nearGoalStateB : GameStateB :=
  ⟨0, 0, [], 20, true, some lvlGoal, true, 0, 0⟩

/-- The spec section 5 collision example, hitting enemy: player at
`(3,4)`, one enemy at `(3.4, 3.6)`. -/
def collisionHitState : GameStateB :=
  ⟨3, 4, [⟨34/10, 36/10, 1/100, 0, "red"⟩], 20, true, some lvlFloor,
   true, 0, 0⟩

/-- The spec section 5 collision example, missing enemy: player at
`(3,4)`, one enemy at `(3.49, 3.49)`. -/
def collisionMissState : GameStateB :=
  ⟨3, 4, [⟨349/100, 349/100, 1/100, 0, "red"⟩], 20, true, some lvlFloor,
   true, 0, 0⟩

/-- A playing state with `timeRemaining = 30` for the timer run. -/
def timerStateB : GameStateB :=
  ⟨0, 0, [], 30, true, some lvlFloor, true, 0, 0⟩

/-- A scene-managed state in the "game" scene, one tile left of the
goal of `lvlGoal`. -/
def gameSceneStateS : GameStateS :=
  ⟨0, 0, [], 20, Scene.game, some lvlGoal, true, 0, 0⟩

end ConcreteData

/-! ## Supporting lemmas -/

/-- Characterization of `canMoveTo`, shared by several developments. -/
theorem canMoveTo_eq_true_iff (m : Option Level) (x y : Int) :
    canMoveTo m x y = true ↔
      ∃ lv, m = some lv ∧ 0 ≤ x ∧ x < (lv.width : Int) ∧ 0 ≤ y ∧
        y < (lv.height : Int) ∧ tileAt lv x y ≠ '#' := by
  cases m with
  | none => simp [canMoveTo]
  | some lv =>
    simp only [canMoveTo, Option.some.injEq]
    constructor
    · intro h
      split_ifs at h with h1 h2 h3
      refine ⟨lv, rfl, ?_, ?_, ?_, ?_, h3⟩ <;> omega
    · rintro ⟨lv2, rfl, hx0, hxw, hy0, hyh, ht⟩
      rw [if_neg (by omega), if_neg (by omega), if_neg ht]

/-- The enemies produced by the `initGameState` scan are exactly the
`E` cells in scan order, appended after the accumulator. -/
theorem scan_enemies_eq (lv : Level) (cells : List (Nat × Nat))
    (a : ScanAcc) :
    (cells.foldl (scanStep lv) a).enemies =
      a.enemies ++ cells.filterMap (eCellOf lv) := by
  induction cells generalizing a with
  | nil => simp
  | cons c rest ih =>
    simp only [List.foldl_cons, List.filterMap_cons]
    by_cases hS : tileAtN lv c.1 c.2 = 'S'
    · have hE : eCellOf lv c = none := by
        simp [eCellOf, hS]
      rw [hE, ih]
      simp [scanStep, hS]
    · by_cases hE : tileAtN lv c.1 c.2 = 'E'
      · have hc : eCellOf lv c =
            some ⟨(c.2 : ℚ), (c.1 : ℚ), 1/100, 0, "red"⟩ := by
          simp [eCellOf, hE]
        rw [hc, ih]
        simp [scanStep, hS, hE]
      · have hc : eCellOf lv c = none := by
          simp [eCellOf, hE]
        rw [hc, ih]
        simp [scanStep, hS, hE]

/-- The player position produced by the `initGameState` scan is the
last `S` cell in scan order (the first one of the reversed cell list),
or the accumulator position when there is no `S` cell. -/
theorem scan_player_eq (lv : Level) (cells : List (Nat × Nat))
    (a : ScanAcc) :
    ((cells.foldl (scanStep lv) a).px,
     (cells.foldl (scanStep lv) a).py) =
      (match cells.reverse.find? (isSCell lv) with
       | some rc => ((rc.2 : Int), (rc.1 : Int))
       | none => (a.px, a.py)) := by
  induction cells generalizing a with
  | nil => simp
  | cons c rest ih =>
    simp only [List.foldl_cons, List.reverse_cons, List.find?_append]
    rw [ih]
    cases hfind : rest.reverse.find? (isSCell lv) with
    | some rc => simp
    | none =>
      simp only [Option.or_none]
      by_cases hS : tileAtN lv c.1 c.2 = 'S'
      · have hb : isSCell lv c = true := by
          simp [isSCell, hS]
        have : (List.find? (isSCell lv) [c]) = some c := by
          simp [List.find?, hb]
        rw [this]
        simp [scanStep, hS]
      · have hb : isSCell lv c = false := by
          simp [isSCell, hS]
        have : (List.find? (isSCell lv) [c]) = none := by
          simp [List.find?, hb]
        rw [this]
        by_cases hE : tileAtN lv c.1 c.2 = 'E'
        · simp [scanStep, hS, hE]
        · simp [scanStep, hS, hE]

/-- Membership in the row-major cell list is exactly being in range. -/
theorem mem_cellsRM (lv : Level) (rc : Nat × Nat) :
    rc ∈ cellsRM lv ↔ rc.1 < lv.height ∧ rc.2 < lv.width := by
  cases rc with
  | mk r c =>
    simp only [cellsRM, List.mem_flatMap, List.mem_map, List.mem_range]
    constructor
    · rintro ⟨row, hrow, col, hcol, heq⟩
      cases heq
      exact ⟨hrow, hcol⟩
    · rintro ⟨hr, hc⟩
      exact ⟨r, hr, c, hc, rfl⟩

/-- A state with the same player position and active level as another
inherits its invariant. -/
theorem invariantB_mono (s s2 : GameStateB)
    (hx : s2.playerX = s.playerX) (hy : s2.playerY = s.playerY)
    (hm : s2.currentMapData = s.currentMapData)
    (h : invariantB s) : invariantB s2 := by
  intro lv hlv
  rw [hx, hy]
  exact h lv (by rw [← hm, hlv])

/-- Scene-state version of `invariantB_mono`. -/
theorem invariantS_mono (s s2 : GameStateS)
    (hx : s2.playerX = s.playerX) (hy : s2.playerY = s.playerY)
    (hm : s2.currentMapData = s.currentMapData)
    (h : invariantS s) : invariantS s2 := by
  intro lv hlv
  rw [hx, hy]
  exact h lv (by rw [← hm, hlv])

/-- A destination accepted by `canMoveTo` is in bounds and off walls
for the active level. -/
theorem canMoveTo_dest_ok (m : Option Level) (nx ny : Int)
    (hc : canMoveTo m nx ny = true) :
    ∀ lv, m = some lv →
      0 ≤ nx ∧ nx < (lv.width : Int) ∧ 0 ≤ ny ∧ ny < (lv.height : Int) ∧
      tileAt lv nx ny ≠ '#' := by
  intro lv hlv
  obtain ⟨lv2, hm2, hx0, hxw, hy0, hyh, htile⟩ :=
    (canMoveTo_eq_true_iff m nx ny).mp hc
  rw [hlv] at hm2
  injection hm2 with h2
  subst h2
  exact ⟨hx0, hxw, hy0, hyh, htile⟩

/-- The tick `tickB` never changes the player position or the active level. -/
theorem tickB_proj (s : GameStateB) :
    (tickB s).playerX = s.playerX ∧ (tickB s).playerY = s.playerY ∧
    (tickB s).currentMapData = s.currentMapData := by
  simp only [tickB, gameOverB, endGameB]
  split_ifs <;> exact ⟨rfl, rfl, rfl⟩

/-- The tick `tickS` never changes the player position or the active level. -/
theorem tickS_proj (s : GameStateS) :
    (tickS s).playerX = s.playerX ∧ (tickS s).playerY = s.playerY ∧
    (tickS s).currentMapData = s.currentMapData := by
  simp only [tickS, gameOverS, endGameS]
  split_ifs <;> exact ⟨rfl, rfl, rfl⟩

/-- The advance step `advanceB` never changes the player position or the active level. -/
theorem advanceB_proj (s : GameStateB) :
    (advanceB s).playerX = s.playerX ∧ (advanceB s).playerY = s.playerY ∧
    (advanceB s).currentMapData = s.currentMapData := by
  cases hm : s.currentMapData <;> simp [advanceB, hm]

/-- The advance step `advanceS` never changes the player position or the active level. -/
theorem advanceS_proj (s : GameStateS) :
    (advanceS s).playerX = s.playerX ∧ (advanceS s).playerY = s.playerY ∧
    (advanceS s).currentMapData = s.currentMapData := by
  cases hm : s.currentMapData <;> simp [advanceS, hm]

/-- The collision check never changes the player position or the
active level. -/
theorem checkCollisionB_proj (s : GameStateB) :
    (checkCollisionB s).playerX = s.playerX ∧
    (checkCollisionB s).playerY = s.playerY ∧
    (checkCollisionB s).currentMapData = s.currentMapData := by
  simp only [checkCollisionB, gameOverB, endGameB]
  cases s.enemies.find? (enemyHits s.playerX s.playerY) <;>
    exact ⟨rfl, rfl, rfl⟩

/-- Scene version of `checkCollisionB_proj`. -/
theorem checkCollisionS_proj (s : GameStateS) :
    (checkCollisionS s).playerX = s.playerX ∧
    (checkCollisionS s).playerY = s.playerY ∧
    (checkCollisionS s).currentMapData = s.currentMapData := by
  simp only [checkCollisionS, gameOverS, endGameS]
  cases s.enemies.find? (enemyHits s.playerX s.playerY) <;>
    exact ⟨rfl, rfl, rfl⟩

/-- The `script.js` boolean-flag keydown handler preserves the
invariant. -/
theorem invariantB_keydownB (s : GameStateB) (k : Key)
    (hs : invariantB s) : invariantB (keydownB s k) := by
  by_cases hp : s.isGamePlaying = true
  · simp only [keydownB, hp, if_true]
    cases hk : newPos s.playerX s.playerY k with
    | none => exact hs
    | some p =>
      obtain ⟨nx, ny⟩ := p
      by_cases hc : canMoveTo s.currentMapData nx ny = true
      · simp only [hc, if_true]
        cases hm : s.currentMapData with
        | none =>
          intro lv0 hlv0
          exact absurd hlv0 (by simp [hm])
        | some lv2 =>
          have hok := canMoveTo_dest_ok _ _ _ hc lv2 hm
          dsimp only
          split_ifs with hG
          · intro lv0 hlv0
            simp only [levelClearB, endGameB] at hlv0 ⊢
            injection hlv0 with h2
            subst h2
            exact hok
          · intro lv0 hlv0
            simp only at hlv0
            injection hlv0 with h2
            subst h2
            exact hok
      · have hcf : canMoveTo s.currentMapData nx ny = false := by
          simpa using hc
        simp only [hcf, Bool.false_eq_true, if_false]
        exact hs
  · have hpf : s.isGamePlaying = false := by
      simpa using hp
    simp only [keydownB, hpf, Bool.false_eq_true, if_false]
    exact hs

/-- The `part_000` keydown handler preserves the invariant (it
validates with the same `canMoveTo`). -/
theorem invariantB_keydownPart (s : GameStateB) (k : Key)
    (hs : invariantB s) : invariantB (keydownPart s k) := by
  simp only [keydownPart]
  cases hk : newPos s.playerX s.playerY k with
  | none => exact hs
  | some p =>
    obtain ⟨nx, ny⟩ := p
    by_cases hc : canMoveTo s.currentMapData nx ny = true
    · simp only [hc, if_true]
      intro lv0 hlv0
      exact canMoveTo_dest_ok _ _ _ hc lv0 hlv0
    · have hcf : canMoveTo s.currentMapData nx ny = false := by
        simpa using hc
      simp only [hcf, Bool.false_eq_true, if_false]
      exact hs

/-- The scene-managed keydown handler preserves the invariant. -/
theorem invariantS_keydownS (s : GameStateS) (k : Key)
    (hs : invariantS s) : invariantS (keydownS s k) := by
  by_cases hp : s.scene = Scene.game
  · simp only [keydownS, hp, if_true]
    cases hk : newPos s.playerX s.playerY k with
    | none => exact hs
    | some p =>
      obtain ⟨nx, ny⟩ := p
      by_cases hc : canMoveTo s.currentMapData nx ny = true
      · simp only [hc, if_true]
        cases hm : s.currentMapData with
        | none =>
          intro lv0 hlv0
          exact absurd hlv0 (by simp [hm])
        | some lv2 =>
          have hok := canMoveTo_dest_ok _ _ _ hc lv2 hm
          dsimp only
          split_ifs with hG
          · intro lv0 hlv0
            simp only [levelClearS, endGameS] at hlv0 ⊢
            injection hlv0 with h2
            subst h2
            exact hok
          · intro lv0 hlv0
            simp only at hlv0
            injection hlv0 with h2
            subst h2
            exact hok
      · have hcf : canMoveTo s.currentMapData nx ny = false := by
          simpa using hc
        simp only [hcf, Bool.false_eq_true, if_false]
        exact hs
  · simp only [keydownS, if_neg hp]
    exact hs

/-- Player position after the scan, given the last `S` cell of the
reversed scan order. -/
theorem initGameStateOn_player (lv : Level) (s : GameStateB)
    (rc : Nat × Nat)
    (hrc : (cellsRM lv).reverse.find? (isSCell lv) = some rc) :
    (initGameStateOn lv s).playerX = (rc.2 : Int) ∧
    (initGameStateOn lv s).playerY = (rc.1 : Int) := by
  have h := scan_player_eq lv (cellsRM lv) ⟨s.playerX, s.playerY, []⟩
  rw [hrc] at h
  exact ⟨by simpa [initGameStateOn] using congrArg Prod.fst h,
         by simpa [initGameStateOn] using congrArg Prod.snd h⟩

/-- Scene version of `initGameStateOn_player`. -/
theorem initGameStateOnS_player (lv : Level) (s : GameStateS)
    (rc : Nat × Nat)
    (hrc : (cellsRM lv).reverse.find? (isSCell lv) = some rc) :
    (initGameStateOnS lv s).playerX = (rc.2 : Int) ∧
    (initGameStateOnS lv s).playerY = (rc.1 : Int) := by
  have h := scan_player_eq lv (cellsRM lv) ⟨s.playerX, s.playerY, []⟩
  rw [hrc] at h
  exact ⟨by simpa [initGameStateOnS] using congrArg Prod.fst h,
         by simpa [initGameStateOnS] using congrArg Prod.snd h⟩

/-- A level with an `S` marker has a last `S` cell in scan order, it
lies in bounds, and its tile is `S`. -/
theorem hasStart_lastS (lv : Level) (hstart : hasStart lv = true) :
    ∃ rc, (cellsRM lv).reverse.find? (isSCell lv) = some rc ∧
      rc.1 < lv.height ∧ rc.2 < lv.width ∧ tileAtN lv rc.1 rc.2 = 'S' := by
  obtain ⟨rc0, hmem, hS0⟩ := List.any_eq_true.mp hstart
  have hsome : ((cellsRM lv).reverse.find? (isSCell lv)).isSome :=
    List.find?_isSome.mpr ⟨rc0, List.mem_reverse.mpr hmem, hS0⟩
  obtain ⟨rc, hrc⟩ := Option.isSome_iff_exists.mp hsome
  have hmemrc : rc ∈ cellsRM lv :=
    List.mem_reverse.mp (List.mem_of_find?_eq_some hrc)
  have hSrc : tileAtN lv rc.1 rc.2 = 'S' := by
    have := List.find?_some hrc
    simpa [isSCell] using this
  have hb := (mem_cellsRM lv rc).mp hmemrc
  exact ⟨rc, hrc, hb.1, hb.2, hSrc⟩

/-- Integer-indexed tile lookup at a natural-number cell. -/
theorem tileAt_natCast (lv : Level) (r c : Nat) :
    tileAt lv (c : Int) (r : Int) = tileAtN lv r c := by
  simp [tileAt]

/-- A successful start on a level containing an `S` marker establishes
the invariant (boolean-flag revision). -/
theorem invariantB_startGame (allLevels : List Level) (levelId : Int)
    (s : GameStateB) (lv : Level)
    (hfind : allLevels.find? (fun l => l.id == levelId) = some lv)
    (hstart : hasStart lv = true) :
    invariantB (startGameB allLevels levelId s) := by
  obtain ⟨rc, hrc, hr, hc, hS⟩ := hasStart_lastS lv hstart
  have heq : startGameB allLevels levelId s =
      { initGameStateOn lv
          { (if s.isGamePlaying then endGameB s else s) with
            currentMapData := some lv }
        with timerOn := true, isGamePlaying := true } := by
    simp only [startGameB, hfind]
  rw [heq]
  intro lv0 hlv0
  have hmap : (initGameStateOn lv
      { (if s.isGamePlaying then endGameB s else s) with
        currentMapData := some lv }).currentMapData = some lv := rfl
  simp only [hmap] at hlv0
  injection hlv0 with h2
  subst h2
  have hp := initGameStateOn_player lv
    { (if s.isGamePlaying then endGameB s else s) with
      currentMapData := some lv } rc hrc
  have hpx : ({ initGameStateOn lv
      { (if s.isGamePlaying then endGameB s else s) with
        currentMapData := some lv }
      with timerOn := true, isGamePlaying := true } :
        GameStateB).playerX = (rc.2 : Int) := hp.1
  have hpy : ({ initGameStateOn lv
      { (if s.isGamePlaying then endGameB s else s) with
        currentMapData := some lv }
      with timerOn := true, isGamePlaying := true } :
        GameStateB).playerY = (rc.1 : Int) := hp.2
  rw [hpx, hpy]
  refine ⟨by positivity, by exact_mod_cast hc, by positivity,
          by exact_mod_cast hr, ?_⟩
  rw [tileAt_natCast, hS]
  decide

/-- A successful start on a level containing an `S` marker establishes
the invariant (scene-managed revision). -/
theorem invariantS_startGame (allLevels : List Level) (levelId : Int)
    (t : GameStateS) (lv : Level)
    (hfind : allLevels.find? (fun l => l.id == levelId) = some lv)
    (hstart : hasStart lv = true) :
    invariantS (startGameS allLevels levelId t) := by
  obtain ⟨rc, hrc, hr, hc, hS⟩ := hasStart_lastS lv hstart
  have heq : startGameS allLevels levelId t =
      { initGameStateOnS lv { t with currentMapData := some lv }
        with timerOn := true, scene := Scene.game } := by
    simp only [startGameS, hfind]
  rw [heq]
  intro lv0 hlv0
  have hmap : (initGameStateOnS lv
      { t with currentMapData := some lv }).currentMapData = some lv := rfl
  simp only [hmap] at hlv0
  injection hlv0 with h2
  subst h2
  have hp := initGameStateOnS_player lv
    { t with currentMapData := some lv } rc hrc
  have hpx : ({ initGameStateOnS lv { t with currentMapData := some lv }
      with timerOn := true, scene := Scene.game } :
        GameStateS).playerX = (rc.2 : Int) := hp.1
  have hpy : ({ initGameStateOnS lv { t with currentMapData := some lv }
      with timerOn := true, scene := Scene.game } :
        GameStateS).playerY = (rc.1 : Int) := hp.2
  rw [hpx, hpy]
  refine ⟨by positivity, by exact_mod_cast hc, by positivity,
          by exact_mod_cast hr, ?_⟩
  rw [tileAt_natCast, hS]
  decide

/-! ## Claims -/

/-- C6: one advance step updates each enemy by `x += speedX` and
`y += speedY` first, and then negates speedX exactly when the updated
x satisfies `x < 1` or `x > mapWidth - 2`; `y` and `speedY` receive no
boundary check.  The closing conjuncts exhibit an enemy that exceeds
the right bound by `0.005` (half its step) before its speed reverses:
the reflection acts after the position update. -/
theorem updateEnemies_advance_spec (w : Nat) (es : List Enemy)
    (e : Enemy) :
    updateEnemies w es = es.map (updateEnemy w) ∧
    (updateEnemy w e).x = e.x + e.speedX ∧
    (updateEnemy w e).y = e.y + e.speedY ∧
    (updateEnemy w e).speedY = e.speedY ∧
    (updateEnemy w e).speedX =
      (if e.x + e.speedX < 1 ∨ e.x + e.speedX > (w : ℚ) - 2
       then -e.speedX else e.speedX) ∧
    (updateEnemy 10 ⟨7995/1000, 2, 1/100, 0, "red"⟩).x = 8005/1000 ∧
    (updateEnemy 10 ⟨7995/1000, 2, 1/100, 0, "red"⟩).speedX = -(1/100) := by
  refine ⟨rfl, ?_, ?_, ?_, ?_, ?_, ?_⟩
  · simp only [updateEnemy]
    split_ifs <;> rfl
  · simp only [updateEnemy]
    split_ifs <;> rfl
  · simp only [updateEnemy]
    split_ifs <;> rfl
  · simp only [updateEnemy]
    split_ifs <;> rfl
  · simp only [updateEnemy]
    rw [if_pos (by norm_num)]
    norm_num
  · simp only [updateEnemy]
    rw [if_pos (by norm_num)]

/-- C7: `canMoveTo(x,y)` is false exactly when there is no active
level, or the coordinate is out of bounds, or the tile there is `#`;
every in-bounds coordinate with any other tile character is
accepted. -/
theorem canMoveTo_characterization (m : Option Level) (x y : Int) :
    canMoveTo m x y = true ↔
      ∃ lv, m = some lv ∧ 0 ≤ x ∧ x < (lv.width : Int) ∧ 0 ≤ y ∧
        y < (lv.height : Int) ∧ tileAt lv x y ≠ '#' :=
  canMoveTo_eq_true_iff m x y

/-- C10: `endGame` is idempotent on the game state in both revisions,
`gameOver` and `levelClear` are exactly one notification followed by
`endGame`, and both leave the session not playing (scene back to
title in the scene-managed revision). -/
theorem endGame_idempotent (s : GameStateB) (t : GameStateS) :
    endGameB (endGameB s) = endGameB s ∧
    endGameS (endGameS t) = endGameS t ∧
    gameOverB s = { endGameB s with gameOverCount := s.gameOverCount + 1 } ∧
    levelClearB s =
      { endGameB s with levelClearCount := s.levelClearCount + 1 } ∧
    gameOverS t = { endGameS t with gameOverCount := t.gameOverCount + 1 } ∧
    levelClearS t =
      { endGameS t with levelClearCount := t.levelClearCount + 1 } ∧
    (gameOverB s).isGamePlaying = false ∧
    (levelClearB s).isGamePlaying = false ∧
    (gameOverS t).scene = Scene.title ∧
    (levelClearS t).scene = Scene.title := by
  exact ⟨rfl, rfl, rfl, rfl, rfl, rfl, rfl, rfl, rfl, rfl⟩

/-- C9: while playing, each timer tick decrements `timeRemaining` by
exactly one; ticks while not playing change nothing; thirty ticks from
`timeRemaining = 30` drive the timer to zero and fire exactly one
game-over (the time-up `alert`), and further ticks after the session
ended change `timeRemaining` no further. -/
theorem tick_timer_spec :
    (∀ s : GameStateB, s.isGamePlaying = true →
      (tickB s).timeRemaining = s.timeRemaining - 1) ∧
    (∀ s : GameStateB, s.isGamePlaying = false → tickB s = s) ∧
    (∀ t : GameStateS, t.scene = Scene.game →
      (tickS t).timeRemaining = t.timeRemaining - 1) ∧
    (∀ t : GameStateS, t.scene ≠ Scene.game → tickS t = t) ∧
    (tickB^[30] timerStateB).timeRemaining = 0 ∧
    (tickB^[30] timerStateB).gameOverCount = 1 ∧
    (tickB^[30] timerStateB).isGamePlaying = false ∧
    (tickB^[35] timerStateB).timeRemaining = 0 ∧
    (tickB^[35] timerStateB).gameOverCount = 1 := by
  refine ⟨?_, ?_, ?_, ?_, by decide, by decide, by decide, by decide,
          by decide⟩
  · intro s h
    simp only [tickB, h, if_true]
    split_ifs <;> rfl
  · intro s h
    simp [tickB, h]
  · intro t h
    simp only [tickS, h, if_true]
    split_ifs <;> rfl
  · intro t h
    simp [tickS, h]

/-- Witness for C9: the hypothesised clauses of `tick_timer_spec`
evaluated at concrete states. -/
theorem tick_timer_spec_witness :
    (tickB playingStateB).timeRemaining = playingStateB.timeRemaining - 1 ∧
    tickB endedStateB = endedStateB ∧
    (tickS gameSceneStateS).timeRemaining =
      gameSceneStateS.timeRemaining - 1 ∧
    tickS initStateS = initStateS :=
  ⟨tick_timer_spec.1 playingStateB rfl,
   tick_timer_spec.2.1 endedStateB rfl,
   tick_timer_spec.2.2.1 gameSceneStateS rfl,
   tick_timer_spec.2.2.2.1 initStateS (by decide)⟩

/-- C1 (amended): when the level lookup fails, the scene-managed
revision leaves the entire state unchanged, and the `isGamePlaying`
revisions leave player, enemies, timer value and current level
unchanged — but they run `endGame()` before the lookup, so a session
that was playing has already been ended (flag cleared, timer
cancelled) and does not remain playing; only when the session was not
playing is the whole state unchanged. -/
theorem startGame_invalid_level (allLevels : List Level) (levelId : Int)
    (s : GameStateB) (t : GameStateS)
    (h : allLevels.find? (fun l => l.id == levelId) = none) :
    startGameS allLevels levelId t = t ∧
    startGameB allLevels levelId s =
      (if s.isGamePlaying then endGameB s else s) ∧
    (startGameB allLevels levelId s).playerX = s.playerX ∧
    (startGameB allLevels levelId s).playerY = s.playerY ∧
    (startGameB allLevels levelId s).enemies = s.enemies ∧
    (startGameB allLevels levelId s).timeRemaining = s.timeRemaining ∧
    (startGameB allLevels levelId s).currentMapData = s.currentMapData ∧
    (s.isGamePlaying = false → startGameB allLevels levelId s = s) := by
  have hB : startGameB allLevels levelId s =
      (if s.isGamePlaying then endGameB s else s) := by
    simp only [startGameB, h]
  have hS : startGameS allLevels levelId t = t := by
    simp only [startGameS, h]
  refine ⟨hS, hB, ?_, ?_, ?_, ?_, ?_, ?_⟩ <;> rw [hB]
  · split_ifs <;> rfl
  · split_ifs <;> rfl
  · split_ifs <;> rfl
  · split_ifs <;> rfl
  · split_ifs <;> rfl
  · intro hnp
    rw [if_neg (by simp [hnp])]

/-- C1 counterexample: with the floor level (id 1) loaded and a
playing session, `startGame(99)` fails the lookup, yet the session is
no longer playing and the timer is cancelled afterwards — the state
did not remain as it was. -/
theorem startGame_invalid_level_counterexample :
    ([lvlFloor].find? (fun l => l.id == (99 : Int))) = none ∧
    playingStateB.isGamePlaying = true ∧
    (startGameB [lvlFloor] 99 playingStateB).isGamePlaying = false ∧
    playingStateB.timerOn = true ∧
    (startGameB [lvlFloor] 99 playingStateB).timerOn = false := by
  decide

/-- Witness for C1 (amended): the theorem applied to a failing lookup
from a playing state and from the title scene. -/
theorem startGame_invalid_level_witness :
    startGameS [lvlFloor] 99 initStateS = initStateS ∧
    startGameB [lvlFloor] 99 playingStateB =
      (if playingStateB.isGamePlaying then endGameB playingStateB
       else playingStateB) := by
  have h := startGame_invalid_level [lvlFloor] 99 playingStateB initStateS
    (by decide)
  exact ⟨h.1, h.2.1⟩

/-- C2 (amended): while not playing, the two `script.js` keydown
handlers change no game state; the `part_000` handler, whose
not-playing guard is an empty block, never consults the playing flag
and processes arrow keys exactly as while playing. -/
theorem keydown_ignored_when_not_playing
    (s : GameStateB) (t : GameStateS) (k : Key) (b : Bool) :
    (s.isGamePlaying = false → keydownB s k = s) ∧
    (t.scene ≠ Scene.game → keydownS t k = t) ∧
    keydownPart { s with isGamePlaying := b } k =
      { keydownPart s k with isGamePlaying := b } := by
  refine ⟨?_, ?_, ?_⟩
  · intro h
    simp [keydownB, h]
  · intro h
    simp [keydownS, h]
  · simp only [keydownPart]
    cases hk : newPos s.playerX s.playerY k with
    | none => rfl
    | some p =>
      cases p with
      | mk nx ny =>
        by_cases hc : canMoveTo s.currentMapData nx ny
        · simp [hc]
        · simp [hc]

/-- C2 counterexample: a state whose session has ended (level still
loaded) where the `part_000` handler moves the player on an
arrow-right event. -/
theorem keydown_not_playing_counterexample :
    endedStateB.isGamePlaying = false ∧
    (keydownPart endedStateB Key.arrowRight).playerX = 2 ∧
    endedStateB.playerX = 1 := by
  decide

/-- Witness for C2 (amended): the theorem applied at concrete
states and the arrow-right key. -/
theorem keydown_ignored_witness :
    keydownB endedStateB Key.arrowRight = endedStateB ∧
    keydownS initStateS Key.arrowRight = initStateS ∧
    keydownPart { endedStateB with isGamePlaying := true } Key.arrowRight =
      { keydownPart endedStateB Key.arrowRight with isGamePlaying := true } := by
  have h := keydown_ignored_when_not_playing endedStateB initStateS
    Key.arrowRight true
  exact ⟨h.1 rfl, h.2.1 (by decide), h.2.2⟩

/-- C3 (amended): in the two `script.js` keydown handlers, an
arrow-key event while playing whose destination is accepted by
`canMoveTo` commits the player position, and then the level-clear
transition fires exactly when the destination tile is `G`; the
`part_000` handler commits the move the same way but never triggers
level-clear (its goal check is absent). -/
theorem keydown_commit_goal
    (s : GameStateB) (t : GameStateS) (k : Key) (nx ny : Int) (lv : Level)
    (hp : s.isGamePlaying = true)
    (hk : newPos s.playerX s.playerY k = some (nx, ny))
    (hm : s.currentMapData = some lv)
    (hc : canMoveTo s.currentMapData nx ny = true) :
    ((keydownB s k).playerX = nx ∧ (keydownB s k).playerY = ny ∧
     (tileAt lv nx ny = 'G' →
        keydownB s k = levelClearB { s with playerX := nx, playerY := ny }) ∧
     (tileAt lv nx ny ≠ 'G' →
        keydownB s k = { s with playerX := nx, playerY := ny })) ∧
    (∀ lv2, t.scene = Scene.game →
      newPos t.playerX t.playerY k = some (nx, ny) →
      t.currentMapData = some lv2 →
      canMoveTo t.currentMapData nx ny = true →
      ((keydownS t k).playerX = nx ∧ (keydownS t k).playerY = ny ∧
       (tileAt lv2 nx ny = 'G' →
          keydownS t k =
            levelClearS { t with playerX := nx, playerY := ny }) ∧
       (tileAt lv2 nx ny ≠ 'G' →
          keydownS t k = { t with playerX := nx, playerY := ny }))) ∧
    (keydownPart s k = { s with playerX := nx, playerY := ny } ∧
     (keydownPart s k).levelClearCount = s.levelClearCount ∧
     (keydownPart s k).isGamePlaying = s.isGamePlaying) := by
  have hc2 : canMoveTo (some lv) nx ny = true := hm ▸ hc
  have hBody : keydownB s k =
      (if tileAt lv nx ny = 'G' then
        levelClearB { s with playerX := nx, playerY := ny }
      else { s with playerX := nx, playerY := ny }) := by
    simp only [keydownB, hp, if_true, hk, hc, hc2, hm, if_true]
  have hPart : keydownPart s k = { s with playerX := nx, playerY := ny } := by
    simp only [keydownPart, hk, hc, if_true]
  refine ⟨⟨?_, ?_, ?_, ?_⟩, ?_, hPart, by rw [hPart], by rw [hPart]⟩
  · rw [hBody]
    split_ifs <;> rfl
  · rw [hBody]
    split_ifs <;> rfl
  · intro hG
    rw [hBody, if_pos hG]
  · intro hG
    rw [hBody, if_neg hG]
  · intro lv2 ht htk htm htc
    have htc2 : canMoveTo (some lv2) nx ny = true := htm ▸ htc
    have hBodyS : keydownS t k =
        (if tileAt lv2 nx ny = 'G' then
          levelClearS { t with playerX := nx, playerY := ny }
        else { t with playerX := nx, playerY := ny }) := by
      simp only [keydownS, ht, if_true, htk, htc, htc2, htm, if_true]
    refine ⟨?_, ?_, ?_, ?_⟩
    · rw [hBodyS]
      split_ifs <;> rfl
    · rw [hBodyS]
      split_ifs <;> rfl
    · intro hG
      rw [hBodyS, if_pos hG]
    · intro hG
      rw [hBodyS, if_neg hG]

/-- C3 counterexample: in `part_000`, a playing state one tile left of
the goal: arrow-right commits the player onto the `G` tile, yet no
level-clear transition fires and the session keeps playing. -/
theorem keydown_goal_counterexample :
    nearGoalStateB.isGamePlaying = true ∧
    canMoveTo nearGoalStateB.currentMapData 1 0 = true ∧
    tileAt lvlGoal 1 0 = 'G' ∧
    (keydownPart nearGoalStateB Key.arrowRight).playerX = 1 ∧
    (keydownPart nearGoalStateB Key.arrowRight).levelClearCount = 0 ∧
    (keydownPart nearGoalStateB Key.arrowRight).isGamePlaying = true := by
  decide

/-- Witness for C3 (amended): the theorem applied to a playing state
one tile left of the goal, in both revisions. -/
theorem keydown_commit_goal_witness :
    (keydownB nearGoalStateB Key.arrowRight).playerX = 1 ∧
    keydownB nearGoalStateB Key.arrowRight =
      levelClearB { nearGoalStateB with playerX := 1, playerY := 0 } ∧
    keydownS gameSceneStateS Key.arrowRight =
      levelClearS { gameSceneStateS with playerX := 1, playerY := 0 } ∧
    keydownPart nearGoalStateB Key.arrowRight =
      { nearGoalStateB with playerX := 1, playerY := 0 } := by
  have h := keydown_commit_goal nearGoalStateB gameSceneStateS
    Key.arrowRight 1 0 lvlGoal rfl rfl rfl (by decide)
  exact ⟨h.1.1, h.1.2.2.1 (by decide),
         (h.2.1 lvlGoal rfl rfl rfl (by decide)).2.2.1 (by decide),
         h.2.2.1⟩

/-- C5: the collision check rounds each enemy coordinate with
`floor(v + 0.5)` (`enemyHits` compares `roundHalf` of `x` and `y` to
the player tile); the first enemy in list order whose rounded tile
equals the player tile triggers game-over regardless of the enemies
after it, and if no enemy matches the state is unchanged.  The closing
conjuncts check the spec examples: player `(3,4)` with enemy
`(3.4, 3.6)` collides, enemy `(3.49, 3.49)` does not. -/
theorem checkCollision_first_match
    (s s2 : GameStateB) (pre post : List Enemy) (e : Enemy)
    (hsplit : s.enemies = pre ++ e :: post)
    (hpre : ∀ e2 ∈ pre, enemyHits s.playerX s.playerY e2 = false)
    (hhit : enemyHits s.playerX s.playerY e = true)
    (hnone : ∀ e2 ∈ s2.enemies, enemyHits s2.playerX s2.playerY e2 = false) :
    checkCollisionB s = gameOverB s ∧
    checkCollisionB s2 = s2 ∧
    roundHalf (34/10) = 3 ∧ roundHalf (36/10) = 4 ∧
    roundHalf (349/100) = 3 ∧
    checkCollisionB collisionHitState = gameOverB collisionHitState ∧
    checkCollisionB collisionMissState = collisionMissState := by
  have hfind : s.enemies.find? (enemyHits s.playerX s.playerY) = some e := by
    rw [hsplit, List.find?_append]
    have h1 : pre.find? (enemyHits s.playerX s.playerY) = none :=
      List.find?_eq_none.mpr (by
        intro x hx
        simp [hpre x hx])
    rw [h1, List.find?_cons_of_pos _ hhit]
    rfl
  have hmiss : ∀ s3 : GameStateB,
      (∀ e2 ∈ s3.enemies, enemyHits s3.playerX s3.playerY e2 = false) →
      checkCollisionB s3 = s3 := by
    intro s3 h3
    have : s3.enemies.find? (enemyHits s3.playerX s3.playerY) = none :=
      List.find?_eq_none.mpr (by
        intro x hx
        simp [h3 x hx])
    simp [checkCollisionB, this]
  have hr1 : roundHalf ((34 : ℚ)/10) = 3 := by
    simp only [roundHalf]
    norm_num
  have hr2 : roundHalf ((36 : ℚ)/10) = 4 := by
    simp only [roundHalf]
    norm_num
  have hr3 : roundHalf ((349 : ℚ)/100) = 3 := by
    simp only [roundHalf]
    norm_num
  have hhitEx : enemyHits (3 : Int) 4 ⟨34/10, 36/10, 1/100, 0, "red"⟩
      = true := by
    simp [enemyHits, hr1, hr2]
  have hmissEx : enemyHits (3 : Int) 4 ⟨349/100, 349/100, 1/100, 0, "red"⟩
      = false := by
    simp [enemyHits, hr3]
  refine ⟨?_, hmiss s2 hnone, hr1, hr2, hr3, ?_, ?_⟩
  · simp [checkCollisionB, hfind]
  · have : collisionHitState.enemies.find?
        (enemyHits collisionHitState.playerX collisionHitState.playerY)
        = some ⟨34/10, 36/10, 1/100, 0, "red"⟩ := by
      simp only [collisionHitState]
      exact List.find?_cons_of_pos _ hhitEx
    simp [checkCollisionB, this]
  · exact hmiss collisionMissState (by
      intro e2 he2
      simp only [collisionMissState, List.mem_singleton] at he2
      rw [he2]
      exact hmissEx)

/-- Witness for C5: the theorem applied at the two concrete spec
example states, with the surrounding-list hypotheses discharged
there. -/
theorem checkCollision_first_match_witness :
    checkCollisionB collisionHitState = gameOverB collisionHitState ∧
    checkCollisionB collisionMissState = collisionMissState := by
  have h := checkCollision_first_match collisionHitState collisionMissState
    [] [] ⟨34/10, 36/10, 1/100, 0, "red"⟩ rfl (by simp)
    (by
      simp only [collisionHitState, enemyHits, roundHalf]
      norm_num)
    (by
      intro e2 he2
      simp only [collisionMissState, List.mem_singleton] at he2
      rw [he2]
      simp only [collisionMissState, enemyHits, roundHalf]
      norm_num)
  exact ⟨h.1, h.2.1⟩

/-- C8: a successful start (here the `initGameState` scan it performs,
in both revisions) resets `timeRemaining` to the configured limit 30,
replaces the enemy list by exactly one enemy per `E` cell in row-major
scan order — each at the marker tile with `speedX = 1/100` and
`speedY = 0`, as `eCellOf` builds them — and sets the player position
to the last `S` cell in scan order (the first cell of the reversed
scan). -/
theorem initGameState_scan_spec (lv : Level) (s : GameStateB)
    (t : GameStateS) (rc : Nat × Nat)
    (hS : (cellsRM lv).reverse.find? (isSCell lv) = some rc) :
    (initGameStateOn lv s).timeRemaining = timeLimit ∧
    timeLimit = 30 ∧
    (initGameStateOn lv s).enemies = (cellsRM lv).filterMap (eCellOf lv) ∧
    (initGameStateOn lv s).playerX = (rc.2 : Int) ∧
    (initGameStateOn lv s).playerY = (rc.1 : Int) ∧
    (initGameStateOnS lv t).timeRemaining = timeLimit ∧
    (initGameStateOnS lv t).enemies = (cellsRM lv).filterMap (eCellOf lv) ∧
    (initGameStateOnS lv t).playerX = (rc.2 : Int) ∧
    (initGameStateOnS lv t).playerY = (rc.1 : Int) := by
  have hpB := scan_player_eq lv (cellsRM lv) ⟨s.playerX, s.playerY, []⟩
  have hpS := scan_player_eq lv (cellsRM lv) ⟨t.playerX, t.playerY, []⟩
  rw [hS] at hpB hpS
  have heB := scan_enemies_eq lv (cellsRM lv) ⟨s.playerX, s.playerY, []⟩
  have heS := scan_enemies_eq lv (cellsRM lv) ⟨t.playerX, t.playerY, []⟩
  refine ⟨rfl, rfl, ?_, ?_, ?_, rfl, ?_, ?_, ?_⟩
  · simpa [initGameStateOn] using heB
  · have := congrArg Prod.fst hpB
    simpa [initGameStateOn] using this
  · have := congrArg Prod.snd hpB
    simpa [initGameStateOn] using this
  · simpa [initGameStateOnS] using heS
  · have := congrArg Prod.fst hpS
    simpa [initGameStateOnS] using this
  · have := congrArg Prod.snd hpS
    simpa [initGameStateOnS] using this

/-- Witness for C8: the spec section 8 example level, one `S` at the
origin and two `E` markers: after the scan the player sits on the `S`
tile and the enemy list has exactly two entries (in scan order). -/
theorem initGameState_scan_witness :
    (cellsRM lvlSpec8).reverse.find? (isSCell lvlSpec8) = some (0, 0) ∧
    (initGameStateOn lvlSpec8 initStateB).playerX = 0 ∧
    (initGameStateOn lvlSpec8 initStateB).playerY = 0 ∧
    (initGameStateOn lvlSpec8 initStateB).enemies =
      (cellsRM lvlSpec8).filterMap (eCellOf lvlSpec8) ∧
    (initGameStateOn lvlSpec8 initStateB).enemies.length = 2 ∧
    (initGameStateOn lvlSpec8 initStateB).timeRemaining = 30 := by
  have h := initGameState_scan_spec lvlSpec8 initStateB initStateS (0, 0)
    (by decide)
  refine ⟨by decide, ?_, ?_, h.2.2.1, ?_, ?_⟩
  · have := h.2.2.2.1
    simpa using this
  · have := h.2.2.2.2.1
    simpa using this
  · rw [h.2.2.1]
    decide
  · rw [h.1, h.2.1]

/-- C4 (amended): the player invariant (in bounds, never on a `#`
tile, whenever a level is active) is established by a successful start
on a level whose grid contains at least one `S` marker, and preserved
by every tick, enemy advance, collision check, key press (all three
handlers) and end-of-game — but start on a level with no `S` marker
may violate it, since the player then retains its previous
coordinates (see the counterexample). -/
theorem invariant_preserved
    (allLevels : List Level) (levelId : Int) (s : GameStateB)
    (t : GameStateS) (k : Key) (lv : Level)
    (hfind : allLevels.find? (fun l => l.id == levelId) = some lv)
    (hstart : hasStart lv = true)
    (hs : invariantB s) (ht : invariantS t) :
    invariantB (startGameB allLevels levelId s) ∧
    invariantS (startGameS allLevels levelId t) ∧
    invariantB (keydownB s k) ∧
    invariantB (keydownPart s k) ∧
    invariantS (keydownS t k) ∧
    invariantB (tickB s) ∧
    invariantS (tickS t) ∧
    invariantB (advanceB s) ∧
    invariantS (advanceS t) ∧
    invariantB (checkCollisionB s) ∧
    invariantS (checkCollisionS t) ∧
    invariantB (endGameB s) ∧
    invariantS (endGameS t) := by
  refine ⟨invariantB_startGame allLevels levelId s lv hfind hstart,
          invariantS_startGame allLevels levelId t lv hfind hstart,
          invariantB_keydownB s k hs,
          invariantB_keydownPart s k hs,
          invariantS_keydownS t k ht,
          ?_, ?_, ?_, ?_, ?_, ?_, ?_, ?_⟩
  · obtain ⟨hx, hy, hm⟩ := tickB_proj s
    exact invariantB_mono s _ hx hy hm hs
  · obtain ⟨hx, hy, hm⟩ := tickS_proj t
    exact invariantS_mono t _ hx hy hm ht
  · obtain ⟨hx, hy, hm⟩ := advanceB_proj s
    exact invariantB_mono s _ hx hy hm hs
  · obtain ⟨hx, hy, hm⟩ := advanceS_proj t
    exact invariantS_mono t _ hx hy hm ht
  · obtain ⟨hx, hy, hm⟩ := checkCollisionB_proj s
    exact invariantB_mono s _ hx hy hm hs
  · obtain ⟨hx, hy, hm⟩ := checkCollisionS_proj t
    exact invariantS_mono t _ hx hy hm ht
  · exact invariantB_mono s _ rfl rfl rfl hs
  · exact invariantS_mono t _ rfl rfl rfl ht

/-- C4 counterexample: starting (from the freshly loaded page, a
reachable state) a level whose grid has no `S` marker leaves the
player at its previous coordinates `(0,0)`, which on this level is a
`#` tile: a reachable state with an active level violates the
invariant. -/
theorem invariant_counterexample :
    (startGameS [lvlNoS] 1 initStateS).currentMapData = some lvlNoS ∧
    (startGameS [lvlNoS] 1 initStateS).scene = Scene.game ∧
    (startGameS [lvlNoS] 1 initStateS).playerX = 0 ∧
    (startGameS [lvlNoS] 1 initStateS).playerY = 0 ∧
    tileAt lvlNoS 0 0 = '#' ∧
    ¬ invariantS (startGameS [lvlNoS] 1 initStateS) := by
  refine ⟨by decide, by decide, by decide, by decide, by decide,
          fun h => ?_⟩
  have h2 := h lvlNoS (by decide)
  have hx : (startGameS [lvlNoS] 1 initStateS).playerX = 0 := by decide
  have hy : (startGameS [lvlNoS] 1 initStateS).playerY = 0 := by decide
  rw [hx, hy] at h2
  exact h2.2.2.2.2 (by decide)

/-- Witness for C4 (amended): the theorem applied to the section 8
example level (which has an `S`), a playing state on the floor level
and a game-scene state on the goal level, discharging the invariant
hypotheses explicitly. -/
theorem invariant_preserved_witness :
    invariantB (startGameB [lvlSpec8] 1 playingStateB) ∧
    invariantB (keydownB playingStateB Key.arrowRight) ∧
    invariantB (tickB playingStateB) ∧
    invariantS (keydownS gameSceneStateS Key.arrowRight) := by
  have h := invariant_preserved [lvlSpec8] 1 playingStateB gameSceneStateS
    Key.arrowRight lvlSpec8 (by decide) (by decide)
    (by
      intro lv hlv
      injection hlv with h2
      subst h2
      exact ⟨by decide, by decide, by decide, by decide, by decide⟩)
    (by
      intro lv hlv
      injection hlv with h2
      subst h2
      exact ⟨by decide, by decide, by decide, by decide, by decide⟩)
  exact ⟨h.1, h.2.2.1, h.2.2.2.2.2.1, h.2.2.2.2.1⟩

end KurumeGame
